import Mathlib

/-!
Verification development for the kwgen text-preprocessing pipeline
(`src/kwgen/utils.py`).  The Python source is shallowly embedded:

* strings are `String`/`List Char` (ASCII-faithful: Python's Unicode-aware
  `str.lower`, `\w`, `str.isnumeric` are modelled on their ASCII behaviour,
  which coincides with Python on every input used here);
* each `re.sub` call is translated as a dedicated left-to-right,
  non-overlapping scanner for its concrete pattern (Python `re.sub`
  semantics: leftmost match, alternatives tried in order, non-greedy
  quantifiers take the shortest continuation, `.` excludes newline,
  a backreference repeats the captured text verbatim);
* fallible Python code (statements that can raise) returns `Except PyErr _`;
* external collaborators (spaCy, nltk's SnowballStemmer language table,
  stopwordsiso, the emoji regexp, gensim's trained phrase model, the
  `random` module) and the repository's `kwgen.languages` tables (absent
  from `src/`) are fields of an explicit environment `Env`, so theorems
  quantify over their behaviour.
-/

namespace Kwgen

/-- Python exception kinds reachable from the embedded code paths. -/
inductive PyErr where
  | typeError : PyErr
  | valueError : PyErr
deriving DecidableEq, Repr

/-! ## Character classes (ASCII models of Python's str/re behaviour) -/

/-- Python `\w` on ASCII text: letters, digits, underscore. -/
def pyWord (c : Char) : Bool := c.isAlphanum || c = '_'

/-- Python whitespace recognised by `str.strip`/`str.split` on ASCII text:
space, tab, newline, carriage return, vertical tab, form feed. -/
def isPySpace (c : Char) : Bool :=
  c = ' ' || c = '\t' || c = '\n' || c = '\r' || c = Char.ofNat 11 || c = Char.ofNat 12

/-- Python `str.lower` (ASCII model). -/
def pyLower (s : String) : String := String.mk (s.data.map Char.toLower)

/-! ## A generic `re.sub` scanner

`reSubGo find fuel s` scans `s` left to right.  At each position the
pattern-specific matcher `find c cs` either reports a match at the head of
`c :: cs` — giving the replacement text and the number `k` of characters
consumed *beyond* `c` (so every match consumes `1 + k ≥ 1` characters,
true of all patterns in the source) — or reports no match, in which case
the scanner emits `c` and moves one character right.  This is exactly
Python's non-overlapping leftmost `re.sub`.  The structural fuel starts at
the string length, which is an upper bound on the number of scanner steps
because every step consumes at least one character. -/
def reSubGo (find : Char → List Char → Option (List Char × Nat)) :
    Nat → List Char → List Char
  | _, [] => []
  | 0, s => s
  | fuel + 1, c :: cs =>
    match find c cs with
    | some (repl, k) => repl ++ reSubGo find fuel (cs.drop k)
    | none => c :: reSubGo find fuel cs

/-- Run one `re.sub` pass with matcher `find` over a character list. -/
def reSub (find : Char → List Char → Option (List Char × Nat))
    (s : List Char) : List Char :=
  reSubGo find s.length s

/-- Match a literal pattern at the head of a list, returning the rest. -/
def litMatch : List Char → List Char → Option (List Char)
  | [], s => some s
  | _ :: _, [] => none
  | p :: ps, c :: cs => if c = p then litMatch ps cs else none

/-- Matcher for replacing one literal nonempty pattern by a literal
replacement, as in Python `str.replace` (all non-overlapping occurrences,
left to right). -/
def litFind (pat repl : List Char) (c : Char) (cs : List Char) :
    Option (List Char × Nat) :=
  match pat with
  | [] => none
  | p :: ps => if c = p && (litMatch ps cs).isSome then some (repl, ps.length) else none

/-- Python `s.replace(pat, repl)` for a nonempty `pat`. -/
def pyReplace (pat repl : List Char) (s : List Char) : List Char :=
  reSub (litFind pat repl) s

/-! ## The Text Normalizer `_clean_text_strings`

Each numbered matcher below embeds one `re.sub` of the source, in source
order. -/

/-- Matcher for `re.sub(r"([a-z])([A-Z])", r"\1\. \2", s)`.  Note that in a
Python replacement template the unknown escape `\.` is kept verbatim, so
the replacement text is group 1, a backslash, a period, a space, group 2. -/
def mLowerUpper (c : Char) (cs : List Char) : Option (List Char × Nat) :=
  match cs with
  | d :: _ => if c.isLower && d.isUpper then some ([c, '\\', '.', ' ', d], 1) else none
  | [] => none

/-- Matcher for `re.sub(r"&gt|&lt", " ", s)`. -/
def mGtLt (c : Char) (cs : List Char) : Option (List Char × Nat) :=
  if c = '&' then
    match cs with
    | 'g' :: 't' :: _ => some ([' '], 2)
    | 'l' :: 't' :: _ => some ([' '], 2)
    | _ => none
  else none

/-- Matcher for `re.sub(r"([a-z])\1{2,}", r"\1", s)`: a lowercase letter
followed greedily by two or more copies of itself collapses to one. -/
def mElong (c : Char) (cs : List Char) : Option (List Char × Nat) :=
  let run := (cs.takeWhile (fun x => x = c)).length
  if c.isLower && 2 ≤ run then some ([c], run) else none

/-- Matcher for `re.sub(r"([\W+])\1{1,}", r"\1", s)`: a non-word character
(`+` is already non-word) repeated at least twice collapses to one. -/
def mRepeatNonWord (c : Char) (cs : List Char) : Option (List Char × Nat) :=
  let run := (cs.takeWhile (fun x => x = c)).length
  if !pyWord c && 1 ≤ run then some ([c], run) else none

/-- Matcher for `re.sub(r"\*|\W\*|\*\W", ". ", s)`.  Alternatives are tried
in order, so a bare `*` always matches first and the third alternative is
unreachable. -/
def mAsterisk (c : Char) (cs : List Char) : Option (List Char × Nat) :=
  if c = '*' then some (['.', ' '], 0)
  else if !pyWord c then
    match cs with
    | '*' :: _ => some (['.', ' '], 1)
    | _ => none
  else none

/-- Scan for the first `)` reachable without crossing a newline (the
non-greedy `.*?` of `re.sub(r"\(.*?\)", ". ", s)`). -/
def parenScan : List Char → Option Nat
  | [] => none
  | x :: xs =>
    if x = ')' then some 0
    else if x = '\n' then none
    else (parenScan xs).map (· + 1)

/-- Matcher for `re.sub(r"\(.*?\)", ". ", s)`. -/
def mParens (c : Char) (cs : List Char) : Option (List Char × Nat) :=
  if c = '(' then (parenScan cs).map (fun j => (['.', ' '], j + 1)) else none

/-- Scan for the first `.` reachable through non-word characters (the
non-greedy `\W+?` of `re.sub(r"\W+?\.", ".", s)`). -/
def dotScan : List Char → Option Nat
  | [] => none
  | x :: xs =>
    if x = '.' then some 0
    else if pyWord x then none
    else (dotScan xs).map (· + 1)

/-- Matcher for `re.sub(r"\W+?\.", ".", s)`. -/
def mNonWordDot (c : Char) (cs : List Char) : Option (List Char × Nat) :=
  if !pyWord c then (dotScan cs).map (fun j => (['.'], j + 1)) else none

/-- Matcher for `re.sub(r"(\.|\?|!)(\w)", r"\1 \2", s)`. -/
def mSentenceSpace (c : Char) (cs : List Char) : Option (List Char × Nat) :=
  match cs with
  | d :: _ =>
    if (c = '.' || c = '?' || c = '!') && pyWord d then some ([c, ' ', d], 1) else none
  | [] => none

/-- Matcher for `re.sub(r" ing ", " ", s)`. -/
def mIng (c : Char) (cs : List Char) : Option (List Char × Nat) :=
  if c = ' ' && (litMatch ['i', 'n', 'g', ' '] cs).isSome then some ([' '], 4) else none

/-- Matcher for `re.sub(r"product received for free[.| ]", " ", s)`. -/
def mProduct (c : Char) (cs : List Char) : Option (List Char × Nat) :=
  if c = 'p' then
    match litMatch "roduct received for free".data cs with
    | some rest =>
      match rest with
      | x :: _ => if x = '.' || x = '|' || x = ' ' then some ([' '], 25) else none
      | [] => none
    | none => none
  else none

/-- Count the consecutive copies of a nonempty group `g` at the head of a
list (the greedy `\1{1,}`); fuel is an upper bound on the copies. -/
def countRepsFuel (g : List Char) : Nat → List Char → Nat
  | 0, _ => 0
  | fuel + 1, s =>
    match litMatch g s with
    | some rest => if g.isEmpty then 0 else 1 + countRepsFuel g fuel rest
    | none => 0

/-- Try group lengths `L, L+1, …` (non-greedy `.{2,}?`) for
`re.sub(r"(.{2,}?)\1{1,}", r"\1", s)`: the first `L ≥ 2` whose group (no
newline, as `.` requires) is immediately followed by a copy of itself wins,
and the greedy `\1{1,}` then consumes the maximal number of copies. -/
def repTry (s : List Char) : Nat → Nat → Option (List Char × Nat)
  | _, 0 => none
  | L, fuel + 1 =>
    if 2 * L ≤ s.length then
      let g := s.take L
      if g.all (fun x => x ≠ '\n') && (litMatch g (s.drop L)).isSome then
        let reps := countRepsFuel g s.length (s.drop L)
        some (g, L * (1 + reps) - 1)
      else repTry s (L + 1) fuel
    else none

/-- Matcher for `re.sub(r"(.{2,}?)\1{1,}", r"\1", s)`. -/
def mRepeatPhrase (c : Char) (cs : List Char) : Option (List Char × Nat) :=
  repTry (c :: cs) 2 (c :: cs).length

/-- Python `str.strip`: drop leading and trailing whitespace. -/
def pyStrip (l : List Char) : List Char :=
  (((l.dropWhile isPySpace).reverse.dropWhile isPySpace)).reverse

/-- Substitution passes of `_clean_text_strings` in source order: the
twelve `re.sub` calls with `str.lower` after the first. -/
def cleanPasses (l : List Char) : List Char :=
  reSub mRepeatPhrase
    (reSub mProduct
      (reSub mIng
        (reSub mSentenceSpace
          (reSub mNonWordDot
            (reSub mParens
              (reSub mAsterisk
                (reSub mRepeatNonWord
                  (reSub mElong
                    (reSub mGtLt
                      ((reSub mLowerUpper l).map Char.toLower))))))))))

/-- The Text Normalizer `_clean_text_strings` of `src/kwgen/utils.py`:
twelve `re.sub` passes in source order, `str.lower` after the first, then
`str.strip`.  The function is total, embedding the contract that the
Python original raises no exception. -/
def _clean_text_strings (s : String) : String :=
  String.mk (pyStrip (cleanPasses s.data))

/-! ## The environment of collaborators

Fields `lemAbbr`, `stemAbbr`, `swAbbr` are modelled from the spec: they
stand for the `kwgen.languages` lookup tables `lem_abbr_dict`,
`stem_abbr_dict`, `sw_abbr_dict` (repository code absent from `src/`),
which the spec describes as a static language-name table mapping a
language name to the codes needed by the lemmatizer, the stemmer and the
stopword library.  The remaining fields model external collaborators:
`stopwords` is `stopwordsiso.stopwords` (empty list = empty set, the
result for an unknown language); `isEmoji` is the character class of
`emoji.get_emoji_regexp()`; `spacy lang` is `some model` when
`spacy.load(lang)` succeeds, possibly after the one download retry of the
source, and `none` when the model stays unavailable (the retry path's
bare `except: pass`); a model maps a text to its tokens as (lemma, POS
tag) pairs; `stem` is `SnowballStemmer(language).stem`; `posTag` gives the
POS tag that the spaCy model for a language assigns to a word. -/
structure Env where
  lemAbbr : List (String × String)
  stemAbbr : List (String × String)
  swAbbr : List (String × String)
  stopwords : String → List String
  isEmoji : Char → Bool
  spacy : String → Option (String → List (String × String))
  stem : String → String → String
  posTag : String → String → String

/-! ## Tokenizer & Filter: `clean_and_tokenize_texts` -/

/-- Python iteration over the `responses` list: touching a `None` (or any
non-string) entry with `large_space in r` in the space-collapsing loop
raises `TypeError` at the first such entry; otherwise the original strings
come back unchanged. -/
def pyStrings : List (Option String) → Except PyErr (List String)
  | [] => .ok []
  | some s :: rest => (pyStrings rest).map (fun l => s :: l)
  | none :: _ => .error .typeError

/-- Lowercase the language name and replace it by its lemmatizer
abbreviation when `lem_abbr_dict` has it (source lines 186-190). -/
def resolveInput (env : Env) (lang : String) : String :=
  let l := pyLower lang
  match env.lemAbbr.lookup l with
  | some v => v
  | none => l

/-- Space collapsing (source lines 195-205): for run lengths 25 down to 1,
replace each run of that many spaces by one space. -/
def collapseSpaces (s : String) : String :=
  String.mk
    (((List.range' 1 25).reverse).foldl
      (fun acc i => pyReplace (List.replicate i ' ') [' '] acc) s.data)

/-- Separator splitting (source lines 207-216): `/` and `-` become spaces;
for French the contraction `d'` is removed. -/
def stripSeparators (lang : String) (s : String) : String :=
  let r := pyReplace ['/'] [' '] s.data
  let r := pyReplace ['-'] [' '] r
  let r := if lang = "fr" then pyReplace ['d', Char.ofNat 39] [] r else r
  String.mk r

/-- Python's `string.punctuation` plus the en-dash and the right single
quote deleted by the `str.translate` call (source lines 219-223). -/
def pyPunctuation : List Char :=
  ['!', Char.ofNat 34, '#', '$', '%', '&', Char.ofNat 39, '(', ')', '*', '+', ',',
   '-', '.', '/', ':', ';', '<', '=', '>', '?', '@', '[', '\\', ']', '^', '_',
   Char.ofNat 96, Char.ofNat 123, '|', Char.ofNat 125, '~',
   Char.ofNat 8211, Char.ofNat 8217]

/-- Punctuation stripping (source lines 219-223). -/
def stripPunctuation (s : String) : String :=
  String.mk (s.data.filter (fun c => !pyPunctuation.contains c))

/-- Emoji removal (source lines 226-228), via the collaborator's character
class. -/
def stripEmojis (env : Env) (s : String) : String :=
  String.mk (s.data.filter (fun c => !env.isEmoji c))

/-- Stopword-set selection (source lines 231-238): direct language code,
then the stemmer-abbreviation code, then the stopword-library code, else
no stopwords. -/
def resolveStopwords (env : Env) (lang : String) : List String :=
  if env.stopwords lang ≠ [] then env.stopwords lang
  else
    match env.stemAbbr.lookup lang with
    | some l => env.stopwords l
    | none =>
      match env.swAbbr.lookup lang with
      | some l => env.stopwords l
      | none => []

/-- Accumulator pass of Python `str.split()`: split on whitespace runs,
discarding empty pieces. -/
def pySplitGo : List Char → List Char → List (List Char)
  | cur, [] => if cur.isEmpty then [] else [cur.reverse]
  | cur, c :: cs =>
    if isPySpace c then
      if cur.isEmpty then pySplitGo [] cs else cur.reverse :: pySplitGo [] cs
    else pySplitGo (c :: cur) cs

/-- Python `str.split()` with no separator argument. -/
def pySplit (l : List Char) : List (List Char) := pySplitGo [] l

/-- Python `str.isnumeric` on ASCII text. -/
def pyIsNumeric (w : String) : Bool := !w.data.isEmpty && w.data.all Char.isDigit

/-- Tokenization with stopword and numeral removal (source lines 240-247):
lowercase, whitespace-split, drop stopwords and numerals. -/
def tokenizeFilter (sw : List String) (text : String) : List String :=
  ((pySplit (pyLower text).data).map String.mk).filter
    (fun w => !sw.contains w && !pyIsNumeric w)

/-- Steps 1-5 of the Tokenizer & Filter followed by the removal of
responses whose token list became empty (source line 248). -/
def tokenizedStage (env : Env) (lang : String) (strs : List String) :
    List (List String) :=
  let noLarge := strs.map collapseSpaces
  let noSep := noLarge.map (stripSeparators lang)
  let noPunct := noSep.map stripPunctuation
  let noEmoji := noPunct.map (stripEmojis env)
  let sw := resolveStopwords env lang
  (noEmoji.map (tokenizeFilter sw)).filter (fun t => !t.isEmpty)

/-! ## Bigram detection

Modelled from the spec: `gensim.models.Phrases(sentences, min_count=3,
threshold=5.0)` is an external collaborator; the spec says it detects
pairs of adjacent tokens that co-occur at least `min_count` times across
the corpus with an association score above the threshold.  The score is
modelled after gensim's default scorer,
`(pair_count - min_count) * vocab_size / (count_a * count_b)`, with the
vocabulary size taken as the number of distinct tokens; the trained
transform replaces, scanning greedily left to right, each detected
adjacent pair by the pair joined with an underscore. -/
def pairCountIn (a b : String) : List String → Nat
  | x :: y :: rest => (if x = a && y = b then 1 else 0) + pairCountIn a b (y :: rest)
  | _ => 0

/-- Number of adjacent occurrences of the pair across the corpus. -/
def adjPairCount (corpus : List (List String)) (a b : String) : Nat :=
  (corpus.map (pairCountIn a b)).sum

/-- Total occurrence count of a token across the corpus. -/
def unigramCount (corpus : List (List String)) (a : String) : Nat :=
  (corpus.map (fun s => s.count a)).sum

/-- Number of distinct tokens in the corpus. -/
def vocabSize (corpus : List (List String)) : Nat := corpus.flatten.dedup.length

/-- Modelled from the spec: the detection predicate of the trained
`Phrases` model (see the section comment above).  The score comparison
`threshold < (pair - min_count) * vocab / (count_a * count_b)` is carried
out by cross-multiplying with the positive factors `count_a * count_b` and
the threshold's denominator, keeping everything in integer arithmetic. -/
def phrasesDetect (corpus : List (List String)) (minCount : Nat) (threshold : ℚ)
    (a b : String) : Bool :=
  let pc := adjPairCount corpus a b
  let ca := unigramCount corpus a
  let cb := unigramCount corpus b
  decide (minCount ≤ pc) &&
    decide (threshold.num * ((ca * cb : Nat) : Int) <
      ((pc : Int) - (minCount : Int)) * ((vocabSize corpus : Nat) : Int) *
        ((threshold.den : Nat) : Int))

/-- Modelled from the spec: the trained transform `bigrams[sentence]`,
greedily merging detected adjacent pairs with an underscore. -/
def phraseSentence (det : String → String → Bool) : List String → List String
  | [] => []
  | [a] => [a]
  | a :: b :: rest =>
    if det a b then (a ++ "_" ++ b) :: phraseSentence det rest
    else a :: phraseSentence det (b :: rest)

/-- Bigram insertion for one response (source lines 255-261): every token
of the transform output containing `_` is inserted at position 0 of the
response's token list, one after another, so they end up in reverse order
in front of the untouched original tokens. -/
def addBigramTokens (det : String → String → Bool) (tokens : List String) :
    List String :=
  ((phraseSentence det tokens).filter (fun t => t.data.contains '_')).foldl
    (fun acc tok => tok :: acc) tokens

/-- The whole bigram step (source lines 250-261): the model is trained on
the token lists as they are after stopword filtering, then each response
gets its detected bigrams prepended. -/
def bigramStage (tokenized : List (List String)) : List (List String) :=
  let det := phrasesDetect tokenized 3 5
  tokenized.map (addBigramTokens det)

/-! ## Lemmatization / stemming fallback chain -/

/-- The source's `_combine_tokens_to_str` at the call sites used here: the
inputs are flat token lists, so it filters the ignore words and joins with
single spaces. -/
def _combine_tokens_to_str (responses ignore_words : List String) : String :=
  String.intercalate " " (responses.filter (fun w => !ignore_words.contains w))

/-- POS tags whose tokens survive lemmatization (source line 268). -/
def allowed_pos_tags : List String := ["NOUN", "PROPN", "ADJ", "ADV", "VERB"]

/-- The source's inner `lemmatize` (lines 264-281): join each token list,
run the spaCy model, keep the lemmas of tokens with an allowed POS tag. -/
def lemmatizeWith (nlpF : String → List (String × String))
    (tokensList : List (List String)) : List (List String) :=
  tokensList.map (fun tokens =>
    ((nlpF (_combine_tokens_to_str tokens [])).filter
      (fun tk => allowed_pos_tags.contains tk.2)).map Prod.fst)

/-- The language names supported by nltk's `SnowballStemmer` (its
documented `languages` tuple). -/
def snowballLanguages : List String :=
  ["arabic", "danish", "dutch", "english", "finnish", "french", "german",
   "hungarian", "italian", "norwegian", "porter", "portuguese", "romanian",
   "russian", "spanish", "swedish"]

/-- The `SnowballStemmer(language)` constructor: nltk raises `ValueError`
when the language is not in its `languages` tuple. -/
def snowballNew (l : String) : Except PyErr String :=
  if snowballLanguages.contains l then .ok l else .error .valueError

/-- Stemmer selection (source lines 296-308): a direct Snowball language
name is used as is; the abbreviations are corrected to full language
names — with the source's literal `"finish"` for `"fi"`; no stemmer
otherwise. -/
def selectStemmer (lang : String) : Except PyErr (Option String) :=
  if snowballLanguages.contains lang then (snowballNew lang).map some
  else if lang = "ar" then (snowballNew "arabic").map some
  else if lang = "fi" then (snowballNew "finish").map some
  else if lang = "hu" then (snowballNew "hungarian").map some
  else if lang = "sv" then (snowballNew "swedish").map some
  else .ok none

/-- The lemmatize-or-stem-or-passthrough chain (source lines 283-319):
when the spaCy model is available (directly or after the download retry)
lemmatize; otherwise stem with the selected stemmer; otherwise pass the
tokens through unmodified. -/
def lemStemChain (env : Env) (lang : String) (toks : List (List String)) :
    Except PyErr (List (List String)) :=
  match env.spacy lang with
  | some nlpF => .ok (lemmatizeWith nlpF toks)
  | none =>
    match selectStemmer lang with
    | .error e => .error e
    | .ok (some stemLang) => .ok (toks.map (fun tokens => tokens.map (env.stem stemLang)))
    | .ok none => .ok toks

/-! ## Frequency/length filtering and the final assembly -/

/-- One response's contribution to `token_frequencies` (source lines
323-325): each distinct token of the response bumps its counter once. -/
def bumpTokens (freq : String → Nat) (tokens : List String) : String → Nat :=
  tokens.dedup.foldl (fun f t => fun s => if s = t then f s + 1 else f s) freq

/-- The `token_frequencies` defaultdict of the source (lines 322-325). -/
def token_frequencies (corpus : List (List String)) : String → Nat :=
  corpus.foldl bumpTokens (fun _ => 0)

/-- Python's `None`/`False` (falsy) minimum becomes 0 (source lines
327-330). -/
def pyOrZero : Option Nat → Nat
  | none => 0
  | some n => n

/-- The frequency/length filter (source lines 332-340). -/
def minLenFreqStep (lem : List (List String)) (min_freq min_word_len : Option Nat) :
    List (List String) :=
  let mf := pyOrZero min_freq
  let mw := pyOrZero min_word_len
  lem.map (fun tokens =>
    tokens.filter (fun t =>
      decide (mw ≤ t.length) && decide (mf ≤ token_frequencies lem t)))

/-- Document frequency as the spec words it: the count of distinct
responses containing the token at least once.  This is the comparison
definition for claim C7; the pipeline itself uses `token_frequencies`. -/
def docFreq (corpus : List (List String)) (t : String) : Nat :=
  corpus.countP (fun ts => decide (t ∈ ts))

/-- The pipeline up to and including empty-result pruning and
cleaned-string pairing (source lines 248-347): note that the surviving
indices index the token lists that remain after the stopword-stage
filtering, yet are applied directly to the original `responses` list when
pairing the cleaned strings. -/
def preSample (env : Env) (strs : List String) (lang : String)
    (min_freq min_word_len : Option Nat) :
    Except PyErr (List (List String) × List String) :=
  match lemStemChain env lang (bigramStage (tokenizedStage env lang strs)) with
  | .error e => .error e
  | .ok lem =>
    let filtered := minLenFreqStep lem min_freq min_word_len
    let idxs := (List.range filtered.length).filter (fun i => !(filtered.getD i []).isEmpty)
    .ok (idxs.map (fun i => filtered.getD i []),
         idxs.map (fun i => _clean_text_strings (strs.getD i "")))

/-- Python `int()` applied to a number: truncation toward zero, computed
as truncating division of the numerator by the (positive) denominator. -/
def pyInt (q : ℚ) : Int := Int.tdiv q.num (Int.ofNat q.den)

/-- Product of a rational and a natural number (the `sample_size *
len(text_corpus)` of the source), kept in normalised fraction form. -/
def ratMulNat (q : ℚ) (n : Nat) : ℚ := mkRat (q.num * (n : Int)) q.den

/-- Python `round()` applied to a number: nearest integer, ties to even.
With `f` the floor of `q`, the fractional part `q - f` is compared with
one half by comparing `2 * (num - f * den)` with `den`. -/
def pyRound (q : ℚ) : Int :=
  let f := Int.ediv q.num (Int.ofNat q.den)
  let twiceFrac := 2 * (q.num - f * (q.den : Int))
  if twiceFrac < (q.den : Int) then f
  else if ((q.den : Nat) : Int) < twiceFrac then f + 1
  else if f % 2 = 0 then f else f + 1

/-- Modelled collaborator for `random.choices(range(n), k=k)`: the `j`-th
draw is produced by the external randomness source `rand`, reduced into
the population. -/
def randomChoices (rand : Nat → Nat) (n k : Nat) : List Nat :=
  (List.range k).map (fun j => rand j % n)

/-- The optional subsampling and final reindexing (source lines 349-363):
with sample fraction 1 every surviving index is kept in order; otherwise
`int(sample_size * len(text_corpus))` indices are drawn with replacement
from the surviving range, and both lists are reindexed by the selection. -/
def sampleStage (pr : List (List String) × List String) (sample_size : ℚ)
    (rand : Nat → Nat) : List (List String) × List String × List Nat :=
  let selected :=
    if sample_size = 1 then List.range pr.1.length
    else randomChoices rand pr.1.length
      (pyInt (ratMulNat sample_size pr.1.length)).toNat
  (selected.map (fun i => pr.1.getD i []),
   selected.map (fun i => pr.2.getD i ""), selected)

/-- The Tokenizer & Filter `clean_and_tokenize_texts` of
`src/kwgen/utils.py` (lines 158-363).  The `str`-input branch that wraps a
single string into a one-element list is outside every claim and omitted;
`responses` is the list of row values, `none` standing for a `None`/
non-string entry.  `rand` is the randomness consumed by the optional
subsampling. -/
def clean_and_tokenize_texts (env : Env) (responses : List (Option String))
    (input_language : String) (min_freq min_word_len : Option Nat)
    (sample_size : ℚ) (rand : Nat → Nat) :
    Except PyErr (List (List String) × List String × List Nat) :=
  match pyStrings responses with
  | .error e => .error e
  | .ok strs =>
    match preSample env strs (resolveInput env input_language) min_freq min_word_len with
    | .error e => .error e
    | .ok pr => .ok (sampleStage pr sample_size rand)

/-! ## Output Orderer `_order_by_pos` -/

/-- Language-key replacement at the top of `_order_by_pos` (source lines
527-528; unlike the Tokenizer & Filter it does not lowercase). -/
def resolvePOSLang (env : Env) (lang : String) : String :=
  match env.lemAbbr.lookup lang with
  | some v => v
  | none => lang

/-- POS tags considered by `_order_by_pos`, in its order (source line
537). -/
def posOrderTags : List String := ["NOUN", "PROPN", "ADJ", "ADV", "VERB"]

/-- The fixed bucket-key order of `_order_by_pos`. -/
def posKeys : List String := ["Nouns:", "Adjectives:", "Adverbs:", "Verbs:", "Other:"]

/-- Model of `nlp(o)[0]`: the first whitespace token of the keyword. -/
def firstWordOf (o : String) : String :=
  match pySplit o.data with
  | [] => ""
  | w :: _ => String.mk w

/-- The Output Orderer `_order_by_pos` of `src/kwgen/utils.py` (lines
508-571): when the (key-replaced) output language is one of the lemmatizer
codes, tag each keyword's first token, bucket by POS with nouns and proper
nouns merged, put keywords whose first-token text is in no bucket into
`Other:`, and drop empty buckets; otherwise return the input unchanged. -/
def _order_by_pos (env : Env) (outputs : List String) (output_language : String) :
    Sum (List (String × List String)) (List String) :=
  let lang := resolvePOSLang env output_language
  if (env.lemAbbr.map Prod.snd).contains lang then
    let nlpOut := outputs.map (fun o => (firstWordOf o, env.posTag lang (firstWordOf o)))
    let ordered := posOrderTags.map (fun p => (nlpOut.filter (fun tk => tk.2 == p)).map Prod.fst)
    let flat := ordered.flatten
    let other := outputs.filter (fun o => !flat.contains o)
    let buckets := ordered ++ [other]
    let dict := [("Nouns:", buckets.getD 0 [] ++ buckets.getD 1 []),
                 ("Adjectives:", buckets.getD 2 []),
                 ("Adverbs:", buckets.getD 3 []),
                 ("Verbs:", buckets.getD 4 []),
                 ("Other:", buckets.getD 5 [])]
    Sum.inl (dict.filter (fun kv => !kv.2.isEmpty))
  else Sum.inr outputs

/-! ## Concrete environments used by witnesses and counterexamples -/

/-- Environment with no language knowledge at all: no lookup tables, no
stopwords, no spaCy model, identity stemmer behaviour. -/
def envPass : Env :=
  { lemAbbr := []
    stemAbbr := []
    swAbbr := []
    stopwords := fun _ => []
    isEmoji := fun _ => false
    spacy := fun _ => none
    stem := fun _ t => t
    posTag := fun _ _ => "X" }

/-- Environment whose stopword collaborator returns the stopword "the"
for every language code (as stopwordsiso does for English). -/
def envStop : Env := { envPass with stopwords := fun _ => ["the"] }

/-- Environment with a spaCy model for code "en" that tags every token of
a text as a pronoun (spaCy genuinely tags the English word "me" as
`PRON`). -/
def envPron : Env :=
  { envPass with
    spacy := fun l => if l = "en" then some (fun s => [(s, "PRON")]) else none }

/-- Environment for the Output Orderer: English maps to the lemmatizer
code "en"; the model tags "happy" as adjective and "quickly" as adverb. -/
def envPos : Env :=
  { envPass with
    lemAbbr := [("english", "en")]
    posTag := fun _ w => if w = "happy" then "ADJ" else if w = "quickly" then "ADV" else "X" }

/-- Twenty distinct filler tokens, used to give a concrete corpus a large
vocabulary. -/
def fillerWords (j : Nat) : List String :=
  (List.range 20).map (fun i => "w" ++ Nat.repr (20 * j + i))

/-- A concrete corpus on which the pair ("customer", "service") is
detected as a bigram: it occurs adjacently in all 4 responses, and the 80
distinct filler words push the vocabulary size to 82, so the association
score (4 - 3) * 82 / (4 * 4) exceeds the threshold 5. -/
def bigramCorpus : List (List String) :=
  (List.range 4).map (fun j => ["customer", "service"] ++ fillerWords j)

end Kwgen

namespace Kwgen

/-! ## Helper lemmas about stripping -/

theorem head?_dropWhile_false {p : Char → Bool} :
    ∀ (l : List Char) (c : Char), (l.dropWhile p).head? = some c → p c = false := by
  intro l
  induction l with
  | nil => intro c h; simp [List.dropWhile] at h
  | cons a as ih =>
    intro c h
    by_cases hp : p a
    · rw [List.dropWhile_cons_of_pos hp] at h
      exact ih c h
    · rw [List.dropWhile_cons_of_neg hp] at h
      simp at h
      subst h
      simpa using hp

theorem getLast?_dropWhile_or {p : Char → Bool} :
    ∀ l : List Char, l.dropWhile p = [] ∨ (l.dropWhile p).getLast? = l.getLast? := by
  intro l
  induction l with
  | nil => exact Or.inl rfl
  | cons a as ih =>
    by_cases hp : p a
    · rw [List.dropWhile_cons_of_pos hp]
      rcases ih with h0 | h1
      · exact Or.inl h0
      · by_cases hnil : as.dropWhile p = []
        · exact Or.inl hnil
        · right
          have has : as ≠ [] := by
            intro e
            rw [e] at hnil
            exact hnil rfl
          obtain ⟨b, bs, rfl⟩ := List.exists_cons_of_ne_nil has
          rw [List.getLast?_cons_cons]
          exact h1
    · rw [List.dropWhile_cons_of_neg hp]
      exact Or.inr rfl

theorem pyStrip_head (l : List Char) :
    (pyStrip l).head?.all (fun c => !isPySpace c) = true := by
  unfold pyStrip
  rcases getLast?_dropWhile_or
      (p := isPySpace) ((l.dropWhile isPySpace).reverse) with h | h
  · rw [h]
    rfl
  · rw [List.head?_reverse, h, List.getLast?_reverse]
    cases hh : (l.dropWhile isPySpace).head? with
    | none => rfl
    | some c =>
      have hc := head?_dropWhile_false (p := isPySpace) l c hh
      simp [Option.all, hc]

theorem pyStrip_getLast (l : List Char) :
    (pyStrip l).getLast?.all (fun c => !isPySpace c) = true := by
  unfold pyStrip
  rw [List.getLast?_reverse]
  cases hh : (((l.dropWhile isPySpace).reverse).dropWhile isPySpace).head? with
  | none => rfl
  | some c =>
    have hc := head?_dropWhile_false (p := isPySpace)
      ((l.dropWhile isPySpace).reverse) c hh
    simp [Option.all, hc]

/-- C4: for every input string, the Text Normalizer `_clean_text_strings`
terminates (it is a total function) and returns a string with no leading or
trailing whitespace. -/
theorem clean_text_strings_total_and_stripped (s : String) :
    (_clean_text_strings s).data.head?.all (fun c => !isPySpace c) = true ∧
    (_clean_text_strings s).data.getLast?.all (fun c => !isPySpace c) = true := by
  simp only [_clean_text_strings]
  exact ⟨pyStrip_head (cleanPasses s.data), pyStrip_getLast (cleanPasses s.data)⟩

/-! ## Helper lemmas about the pipeline -/

theorem pyStrings_map_some (strs : List String) :
    pyStrings (strs.map some) = .ok strs := by
  induction strs with
  | nil => rfl
  | cons s rest ih => simp [pyStrings, ih, Except.map]

theorem pyStrings_of_mem_none {responses : List (Option String)}
    (h : none ∈ responses) : pyStrings responses = .error .typeError := by
  induction responses with
  | nil => cases h
  | cons r rest ih =>
    cases r with
    | none => rfl
    | some s =>
      have hr : none ∈ rest := by
        rcases List.mem_cons.1 h with h0 | h1
        · cases h0
        · exact h1
      simp [pyStrings, ih hr, Except.map]

theorem foldl_cons_rev (l init : List String) :
    l.foldl (fun acc tok => tok :: acc) init = l.reverse ++ init := by
  induction l generalizing init with
  | nil => rfl
  | cons a as ih => simp [List.foldl_cons, ih, List.reverse_cons, List.append_assoc]

theorem addBigramTokens_eq (det : String → String → Bool) (tokens : List String) :
    addBigramTokens det tokens =
      ((phraseSentence det tokens).filter (fun t => t.data.contains '_')).reverse
        ++ tokens := by
  unfold addBigramTokens
  exact foldl_cons_rev _ _

theorem getD_map_of_fix_nil (f : List String → List String) (hf : f [] = [])
    (l : List (List String)) (i : Nat) :
    (l.map f).getD i [] = f (l.getD i []) := by
  induction l generalizing i with
  | nil => simp [List.getD, hf]
  | cons a as ih =>
    cases i with
    | zero => rfl
    | succ j => simpa using ih j

theorem bumpTokens_run (tokens : List String) (f : String → Nat) (s : String) :
    bumpTokens f tokens s = f s + (if s ∈ tokens then 1 else 0) := by
  have run : ∀ (l : List String) (g : String → Nat),
      (l.foldl (fun f t => fun x => if x = t then f x + 1 else f x) g) s
        = g s + l.count s := by
    intro l
    induction l with
    | nil => intro g; simp
    | cons a as ih =>
      intro g
      rw [List.foldl_cons, ih, List.count_cons]
      by_cases hsa : s = a
      · simp [hsa]
        omega
      · simp [hsa, Ne.symm hsa]
  unfold bumpTokens
  rw [run, List.count_dedup]

theorem token_frequencies_eq_docFreq (corpus : List (List String)) (t : String) :
    token_frequencies corpus t = docFreq corpus t := by
  have main : ∀ (cs : List (List String)) (f : String → Nat),
      (cs.foldl bumpTokens f) t = f t + cs.countP (fun ts => decide (t ∈ ts)) := by
    intro cs
    induction cs with
    | nil => intro f; simp
    | cons a as ih =>
      intro f
      rw [List.foldl_cons, ih, bumpTokens_run, List.countP_cons]
      by_cases ha : t ∈ a <;> simp [ha, Nat.add_assoc, Nat.add_comm]
  unfold token_frequencies docFreq
  rw [main]
  simp

/-- C2: on every successful run of `clean_and_tokenize_texts` — whatever
the environment, responses, language, minimum frequency, minimum word
length and sample fraction — the three components of the result have equal
length. -/
theorem clean_and_tokenize_lengths_equal (env : Env)
    (responses : List (Option String)) (input_language : String)
    (min_freq min_word_len : Option Nat) (sample_size : ℚ) (rand : Nat → Nat)
    (tc : List (List String)) (ct : List String) (sel : List Nat)
    (h : clean_and_tokenize_texts env responses input_language min_freq
        min_word_len sample_size rand = .ok (tc, ct, sel)) :
    tc.length = sel.length ∧ ct.length = sel.length := by
  unfold clean_and_tokenize_texts at h
  split at h
  · cases h
  · split at h
    · cases h
    · rename_i pr hpre
      simp only [Except.ok.injEq] at h
      have h1 : tc = (sampleStage pr sample_size rand).1 := by rw [h]
      have h2 : ct = (sampleStage pr sample_size rand).2.1 := by rw [h]
      have h3 : sel = (sampleStage pr sample_size rand).2.2 := by rw [h]
      rw [h1, h2, h3]
      unfold sampleStage
      constructor <;> simp

/-- Witness for C2 at a concrete run. -/
theorem clean_and_tokenize_lengths_equal_witness :
    ([["good"]] : List (List String)).length = ([0] : List Nat).length ∧
    (["good"] : List String).length = ([0] : List Nat).length :=
  clean_and_tokenize_lengths_equal envPass [some "good"] "xx" (some 0) (some 0)
    1 (fun _ => 0) [["good"]] ["good"] [0] rfl

/-- C7: the pipeline's `token_frequencies` table assigns each token its
document frequency — the number of distinct responses containing it at
least once, not its total occurrence count — and the frequency/length
filter keeps a token exactly when its length is at least the effective
minimum word length and its document frequency is at least the effective
minimum frequency, a `None`/falsy minimum meaning 0. -/
theorem min_len_freq_filter_is_docFreq_filter (lem : List (List String))
    (min_freq min_word_len : Option Nat) :
    pyOrZero none = 0 ∧
    (∀ t, token_frequencies lem t = docFreq lem t) ∧
    minLenFreqStep lem min_freq min_word_len =
      lem.map (fun tokens => tokens.filter (fun t =>
        decide (pyOrZero min_word_len ≤ t.length) &&
        decide (pyOrZero min_freq ≤ docFreq lem t))) := by
  refine ⟨rfl, token_frequencies_eq_docFreq lem, ?_⟩
  unfold minLenFreqStep
  rw [show token_frequencies lem = docFreq lem from
    funext (token_frequencies_eq_docFreq lem)]

/-- C10: whenever `_order_by_pos` takes the POS-tagging branch it returns
a mapping whose keys appear in the fixed order "Nouns:" (with proper nouns
merged into nouns by construction), "Adjectives:", "Adverbs:", "Verbs:",
"Other:", every empty bucket omitted; when no tagging model is available
for the (key-replaced) language it returns the input list unchanged, and
it never raises (the embedding is total). -/
theorem order_by_pos_ordered_keys_or_unchanged (env : Env) (outputs : List String)
    (output_language : String) :
    ((env.lemAbbr.map Prod.snd).contains (resolvePOSLang env output_language) = false →
      _order_by_pos env outputs output_language = Sum.inr outputs) ∧
    ∀ d, _order_by_pos env outputs output_language = Sum.inl d →
      (d.map Prod.fst).Sublist posKeys ∧ ∀ kv ∈ d, kv.2 ≠ ([] : List String) := by
  constructor
  · intro hfalse
    unfold _order_by_pos
    dsimp only
    split
    · rename_i hcond
      rw [hfalse] at hcond
      exact absurd hcond (by decide)
    · rfl
  · intro d hd
    unfold _order_by_pos at hd
    by_cases hb : (env.lemAbbr.map Prod.snd).contains (resolvePOSLang env output_language) = true
    · simp only [hb, if_true] at hd
      have hd2 := Sum.inl.inj hd
      subst hd2
      constructor
      · exact List.Sublist.map Prod.fst (List.filter_sublist _)
      · intro kv hkv
        have hne := (List.mem_filter.1 hkv).2
        simpa using hne
    · simp only [Bool.not_eq_true] at hb
      simp only [hb] at hd
      cases hd

/-- Witness for C10 at both branches: the spec's own example, keywords
"happy" and "quickly" for a POS-supported language, yields only the
"Adjectives:" and "Adverbs:" buckets, whose key list is a sublist of the
fixed order; an unknown language comes back unchanged. -/
theorem order_by_pos_ordered_keys_witness :
    (([("Adjectives:", ["happy"]), ("Adverbs:", ["quickly"])]
        : List (String × List String)).map Prod.fst).Sublist posKeys ∧
    _order_by_pos envPass ["happy", "quickly"] "nolang" = Sum.inr ["happy", "quickly"] :=
  ⟨((order_by_pos_ordered_keys_or_unchanged envPos ["happy", "quickly"] "english").2
      [("Adjectives:", ["happy"]), ("Adverbs:", ["quickly"])] rfl).1,
   (order_by_pos_ordered_keys_or_unchanged envPass ["happy", "quickly"] "nolang").1 rfl⟩

/-- C8: for every corpus and every response, the bigram step leaves the
original token list intact as the tail of the result, and every
underscore-joined token that the (minimum count 3, threshold 5.0) phrase
transform detects in the response is inserted in front of it — so the
merged bigram precedes the constituent unigrams, which both remain
present. -/
theorem bigram_inserted_front_unigrams_remain (corpus : List (List String)) (i : Nat) :
    ((bigramStage corpus).getD i []).drop
        (((phraseSentence (phrasesDetect corpus 3 5) (corpus.getD i [])).filter
          (fun t => t.data.contains '_')).length) = corpus.getD i [] ∧
    ∀ t, t ∈ phraseSentence (phrasesDetect corpus 3 5) (corpus.getD i []) →
      t.data.contains '_' = true →
      t ∈ ((bigramStage corpus).getD i []).take
        (((phraseSentence (phrasesDetect corpus 3 5) (corpus.getD i [])).filter
          (fun t => t.data.contains '_')).length) := by
  have hnil : addBigramTokens (phrasesDetect corpus 3 5) [] = [] := rfl
  have hgetD : (bigramStage corpus).getD i [] =
      addBigramTokens (phrasesDetect corpus 3 5) (corpus.getD i []) := by
    unfold bigramStage
    exact getD_map_of_fix_nil _ hnil corpus i
  rw [hgetD, addBigramTokens_eq]
  constructor
  · exact List.drop_left' (List.length_reverse _)
  · intro t ht hu
    rw [List.take_left' (List.length_reverse _), List.mem_reverse]
    exact List.mem_filter.2 ⟨ht, hu⟩

set_option maxRecDepth 10000 in
/-- Witness for C8: on the concrete corpus `bigramCorpus` the pair
("customer", "service") is detected, and the merged token
"customer_service" lies in the inserted front segment of response 0. -/
theorem bigram_inserted_front_witness :
    "customer_service" ∈ ((bigramStage bigramCorpus).getD 0 []).take
      (((phraseSentence (phrasesDetect bigramCorpus 3 5) (bigramCorpus.getD 0 [])).filter
        (fun t => t.data.contains '_')).length) :=
  (bigram_inserted_front_unigrams_remain bigramCorpus 0).2 "customer_service"
    (by decide) (by decide)

/-- C1 (code bug): with "the" a stopword, the first response "the" empties
at the stopword step and the second response "good" is the only survivor,
so the claim requires the paired clean text to be the normalizer output of
"good"; but the code pairs the survivor's tokens with the normalizer
output of `responses[0] = "the"`, because the indices surviving the
final filter index the post-stopword-filtered list, not the original
`responses`.  The run below returns token list `["good"]` paired with
clean text `"the"`, while the normalizer maps `"good"` to `"good"`. -/
theorem clean_text_pairing_misaligned :
    clean_and_tokenize_texts envStop [some "the", some "good"] "xx" (some 0) (some 0)
        1 (fun _ => 0) = .ok ([["good"]], ["the"], [0]) ∧
    _clean_text_strings "good" = "good" ∧ _clean_text_strings "the" = "the" :=
  ⟨rfl, rfl, rfl⟩

/-- C3 (code bug): for the language abbreviation "fi" with no spaCy model
available, the source constructs `SnowballStemmer("finish")`; "finish" is
not one of nltk's Snowball languages ("finnish" is), so the constructor
raises `ValueError` and `clean_and_tokenize_texts` raises instead of
falling back. -/
theorem fi_stemmer_typo_raises :
    clean_and_tokenize_texts envPass [some "good"] "fi" (some 2) (some 4) 1
        (fun _ => 0) = .error .valueError ∧
    selectStemmer "fi" = .error .valueError ∧
    snowballLanguages.contains "finnish" = true ∧
    snowballLanguages.contains "finish" = false :=
  ⟨rfl, rfl, rfl, rfl⟩

/-- Counterexample to C9 as stated: a `None` entry is not filtered out —
the very first membership test of the space-collapsing loop raises
`TypeError`. -/
theorem none_entry_raises_counterexample :
    clean_and_tokenize_texts envPass [none] "english" (some 2) (some 4) 1
      (fun _ => 0) = .error .typeError := rfl

/-- C9 as amended: whenever the response list contains a `None` (or other
non-string) entry, `clean_and_tokenize_texts` raises `TypeError` at the
space-collapsing membership test instead of dropping the entry. -/
theorem none_entry_raises (env : Env) (responses : List (Option String))
    (input_language : String) (min_freq min_word_len : Option Nat)
    (sample_size : ℚ) (rand : Nat → Nat) (h : none ∈ responses) :
    clean_and_tokenize_texts env responses input_language min_freq min_word_len
      sample_size rand = .error .typeError := by
  unfold clean_and_tokenize_texts
  rw [pyStrings_of_mem_none h]

/-- Witness for the amended C9 at a concrete input. -/
theorem none_entry_raises_witness :
    clean_and_tokenize_texts envPass [some "a", none] "english" (some 2) (some 4) 1
      (fun _ => 0) = .error .typeError :=
  none_entry_raises envPass [some "a", none] "english" (some 2) (some 4) 1
    (fun _ => 0) (by decide)

/-- Counterexample to C6 as stated: with exactly one surviving response
(`preSample` returns a single pair) and sample fraction 9/10 ≠ 1, the
claim demands `round(9/10 * 1) = 1` drawn index, but the code draws
`int(9/10 * 1) = 0` indices: the run returns an empty selection. -/
theorem sampling_rounding_counterexample :
    preSample envPass ["good"] "xx" (some 0) (some 0) = .ok ([["good"]], ["good"]) ∧
    clean_and_tokenize_texts envPass [some "good"] "xx" (some 0) (some 0)
        (mkRat 9 10) (fun _ => 0) = .ok ([], [], []) ∧
    pyRound (mkRat 9 10) = 1 :=
  ⟨rfl, rfl, by decide⟩

/-- C6 as amended: on a successful run with `N` surviving responses, a
sample fraction of 1 yields exactly `List.range N` (ascending, no
duplicates), and any other fraction yields the draw-with-replacement
`random.choices(range(N), k = int(fraction * N))` — `int` truncating
toward zero, not `round` — whose length is that `k`. -/
theorem sampling_count_and_selection (env : Env) (strs : List String)
    (input_language : String) (min_freq min_word_len : Option Nat)
    (sample_size : ℚ) (rand : Nat → Nat)
    (pc : List (List String)) (cc : List String)
    (hpre : preSample env strs (resolveInput env input_language) min_freq
        min_word_len = .ok (pc, cc))
    (tc : List (List String)) (ct : List String) (sel : List Nat)
    (h : clean_and_tokenize_texts env (strs.map some) input_language min_freq
        min_word_len sample_size rand = .ok (tc, ct, sel)) :
    (sample_size = 1 → sel = List.range pc.length) ∧
    (sample_size ≠ 1 →
      sel = randomChoices rand pc.length
        (pyInt (ratMulNat sample_size pc.length)).toNat ∧
      sel.length = (pyInt (ratMulNat sample_size pc.length)).toNat) := by
  unfold clean_and_tokenize_texts at h
  simp only [pyStrings_map_some, hpre, Except.ok.injEq] at h
  have hsel : sel = (sampleStage (pc, cc) sample_size rand).2.2 := by rw [h]
  constructor
  · intro h1
    rw [hsel]
    unfold sampleStage
    dsimp only
    rw [if_pos h1]
  · intro h1
    constructor
    · rw [hsel]
      unfold sampleStage
      dsimp only
      rw [if_neg h1]
    · rw [hsel]
      unfold sampleStage
      dsimp only
      rw [if_neg h1]
      simp [randomChoices]

/-- Witness for the amended C6 at a concrete run with fraction 1. -/
theorem sampling_count_witness :
    ([0] : List Nat) = List.range ([["good"]] : List (List String)).length :=
  (sampling_count_and_selection envPass ["good"] "xx" (some 0) (some 0) 1
    (fun _ => 0) [["good"]] ["good"] rfl [["good"]] ["good"] [0] rfl).1 rfl

/-! ## Helper lemmas towards C5 -/

theorem tokenizedStage_mem_ne_nil {env : Env} {lang : String} {strs : List String}
    {l : List String} (hl : l ∈ tokenizedStage env lang strs) : l ≠ [] := by
  unfold tokenizedStage at hl
  have hne := (List.mem_filter.1 hl).2
  simpa using hne

theorem bigramStage_length (tokenized : List (List String)) :
    (bigramStage tokenized).length = tokenized.length := by
  unfold bigramStage
  simp

theorem bigramStage_mem_ne_nil {tokenized : List (List String)}
    (hne : ∀ l ∈ tokenized, l ≠ []) :
    ∀ l ∈ bigramStage tokenized, l ≠ [] := by
  intro l hl
  unfold bigramStage at hl
  obtain ⟨x, hx, rfl⟩ := List.mem_map.1 hl
  rw [addBigramTokens_eq]
  intro hcontra
  exact hne x hx (List.append_eq_nil.1 hcontra).2

theorem minLenFreqStep_zero (lem : List (List String)) :
    minLenFreqStep lem (some 0) (some 0) = lem := by
  unfold minLenFreqStep pyOrZero
  simp [Nat.zero_le]

theorem range_filter_all_nonempty (lem : List (List String))
    (hne : ∀ l ∈ lem, l ≠ []) :
    (List.range lem.length).filter (fun i => !(lem.getD i []).isEmpty) =
      List.range lem.length := by
  apply List.filter_eq_self.2
  intro i hi
  have hilt : i < lem.length := List.mem_range.1 hi
  have hmem : lem.getD i [] ∈ lem := by
    rw [List.getD_eq_getElem _ _ hilt]
    exact List.getElem_mem hilt
  have hne2 := hne _ hmem
  simpa using hne2

theorem preSample_no_spacy_length (env : Env) (lang : String) (strs : List String)
    (hspacy : env.spacy lang = none) (pc : List (List String)) (cc : List String)
    (hps : preSample env strs lang (some 0) (some 0) = .ok (pc, cc)) :
    pc.length = (tokenizedStage env lang strs).length := by
  have hTne : ∀ l ∈ tokenizedStage env lang strs, l ≠ [] :=
    fun l hl => tokenizedStage_mem_ne_nil hl
  have hBne : ∀ l ∈ bigramStage (tokenizedStage env lang strs), l ≠ [] :=
    bigramStage_mem_ne_nil hTne
  unfold preSample lemStemChain at hps
  rw [hspacy] at hps
  cases hst : selectStemmer lang with
  | error e =>
    rw [hst] at hps
    cases hps
  | ok os =>
    rw [hst] at hps
    cases os with
    | none =>
      simp only [minLenFreqStep_zero, Except.ok.injEq, Prod.mk.injEq] at hps
      obtain ⟨h1, h2⟩ := hps
      rw [← h1,
        range_filter_all_nonempty (bigramStage (tokenizedStage env lang strs)) hBne]
      simp [bigramStage_length]
    | some st =>
      have hSne : ∀ l ∈ (bigramStage (tokenizedStage env lang strs)).map
          (fun tokens => tokens.map (env.stem st)), l ≠ [] := by
        intro l hl
        obtain ⟨x, hx, rfl⟩ := List.mem_map.1 hl
        intro hcontra
        exact hBne x hx (List.map_eq_nil_iff.1 hcontra)
      simp only [minLenFreqStep_zero, Except.ok.injEq, Prod.mk.injEq] at hps
      obtain ⟨h1, h2⟩ := hps
      rw [← h1,
        range_filter_all_nonempty _ hSne]
      simp [bigramStage_length]

/-- Counterexample to C5 as stated: in an environment whose spaCy model
tags every token of the single response "me" as a pronoun (as spaCy does
for English "me"), the response has one token after stopword removal and
tokenization, `min_freq = 0` and `min_word_len = 0` discard nothing, yet
the POS filter inside lemmatization empties the response and it is dropped
from the returned corpus. -/
theorem pos_filter_drops_response_counterexample :
    tokenizedStage envPron "en" ["me"] = [["me"]] ∧
    clean_and_tokenize_texts envPron [some "me"] "en" (some 0) (some 0) 1
      (fun _ => 0) = .ok ([], [], []) :=
  ⟨rfl, rfl⟩

/-- C5 as amended: with `min_freq = 0`, `min_word_len = 0` and no
subsampling, whenever the pipeline does not take the lemmatization branch
(no spaCy model, so stemming or passthrough applies and no POS filter
runs), every response that still has at least one token after stopword
removal and tokenization survives into the returned corpus: the corpus
has exactly one entry per post-stopword-nonempty response. -/
theorem survival_at_zero_minimums_without_lemmatizer (env : Env)
    (strs : List String) (input_language : String) (rand : Nat → Nat)
    (hspacy : env.spacy (resolveInput env input_language) = none)
    (tc : List (List String)) (ct : List String) (sel : List Nat)
    (h : clean_and_tokenize_texts env (strs.map some) input_language (some 0)
        (some 0) 1 rand = .ok (tc, ct, sel)) :
    tc.length = (tokenizedStage env (resolveInput env input_language) strs).length := by
  unfold clean_and_tokenize_texts at h
  cases hq : preSample env strs (resolveInput env input_language) (some 0) (some 0) with
  | error e =>
    simp only [pyStrings_map_some, hq] at h
    cases h
  | ok pr =>
    cases pr with
    | mk pc cc =>
      simp only [pyStrings_map_some, hq, Except.ok.injEq] at h
      have hlen := preSample_no_spacy_length env (resolveInput env input_language)
        strs hspacy pc cc hq
      have htc : tc = (sampleStage (pc, cc) 1 rand).1 := by rw [h]
      rw [htc]
      unfold sampleStage
      dsimp only
      rw [if_pos rfl]
      simpa using hlen

/-- Witness for the amended C5 at a concrete run: one response, stemming
unavailable, passthrough applies, and the single post-stopword-nonempty
response survives. -/
theorem survival_at_zero_minimums_witness :
    ([["good"]] : List (List String)).length =
      (tokenizedStage envPass (resolveInput envPass "xx") ["good"]).length :=
  survival_at_zero_minimums_without_lemmatizer envPass ["good"] "xx" (fun _ => 0)
    rfl [["good"]] ["good"] [0] rfl

end Kwgen
